import Mathlib

/-!
Verification of the Grocery State Engine of this repository.

The engine is the `GroceryAssistant` class of `grocery_app.py` (the rule-based
variant, whose operations match the specified `addItem` / `recordPurchase` /
`predictRestock` / `checkExpiryAlerts` / `removeFromHistory` / `replaceItem`
signatures).  Embedding conventions:

* Calendar dates are modelled as whole-day indices (`Int`): `datetime.now()`
  is a day number `today`, `"%Y-%m-%d"` strings denote a day, `timedelta`
  arithmetic and `(a - b).days` become integer arithmetic.  A date string
  stored in the document is either well formed (`DateStr.valid day`) or
  malformed (`DateStr.malformed`); `datetime.strptime` succeeds exactly on
  well-formed ones.
* Python dicts are insertion-ordered association lists; `d[k] = v` updates the
  existing entry in place or appends a new one at the end.
* Python floats (`statistics.mean`, the `* 0.9` threshold) are modelled as
  exact rationals `ℚ`; `round` is round-half-to-even as in Python.
* Python string operations (`strip`, `lower`, `title`, substring `in`) are
  modelled on ASCII text, matching Python on ASCII inputs.
* Mutating methods return the updated document; `save_data` persists the full
  document, so the returned document is the persisted one.  A statement the
  code can raise through (an uncaught `strptime` `ValueError`) is modelled by
  `Except`, with `.error` marking an exception that escapes to the caller.
-/

/-- Python whitespace characters recognised by `str.strip()` (ASCII range):
space, tab, newline, carriage return, vertical tab, form feed. -/
def isWs (c : Char) : Bool :=
  c.toNat = 32 || c.toNat = 9 || c.toNat = 10 || c.toNat = 13 ||
  c.toNat = 11 || c.toNat = 12

/-- Drop leading and trailing whitespace from a character list
(`str.strip()` on the underlying text). -/
def stripList (l : List Char) : List Char :=
  ((l.dropWhile isWs).reverse.dropWhile isWs).reverse

/-- Python `str.strip()`. -/
def pyStrip (s : String) : String := String.mk (stripList s.data)

/-- Python `str.lower()` (ASCII): `Char.toLower` is exactly the ASCII
lowering Python applies to ASCII text. -/
def pyLower (s : String) : String := String.mk (s.data.map Char.toLower)

/-- The normalisation `name.strip().lower()` applied by the engine to item
names. -/
def pyNorm (s : String) : String := pyLower (pyStrip s)

/-- Helper for `str.title()`: the boolean records whether the previous
character was cased (a letter). -/
def titleAux : List Char → Bool → List Char
  | [], _ => []
  | c :: cs, prevCased =>
    if c.isAlpha then
      (if prevCased then c.toLower else c.toUpper) :: titleAux cs true
    else
      c :: titleAux cs false

/-- Python `str.title()` (ASCII). -/
def pyTitle (s : String) : String := String.mk (titleAux s.data false)

/-- Contiguous-substring test on character lists. -/
def subListOf (needle : List Char) : List Char → Bool
  | [] => needle.isEmpty
  | c :: t => needle.isPrefixOf (c :: t) || subListOf needle t

/-- Python substring test `needle in hay`. -/
def pyIn (needle hay : String) : Bool := subListOf needle.data hay.data

/-- Python `round` on an exact rational: round half to even. -/
def pyRound (q : ℚ) : Int :=
  if q - (⌊q⌋ : ℚ) < 1/2 then ⌊q⌋
  else if (1/2 : ℚ) < q - (⌊q⌋ : ℚ) then ⌊q⌋ + 1
  else if ⌊q⌋ % 2 = 0 then ⌊q⌋ else ⌊q⌋ + 1

/-- A stored date string: either a well-formed `"YYYY-MM-DD"` denoting a
whole-day index, or malformed text. -/
inductive DateStr where
  | valid (day : Int)
  | malformed
deriving DecidableEq

/-- Model of `datetime.strptime(s, "%Y-%m-%d")`: succeeds exactly on
well-formed date strings (`none` models the raised `ValueError`). -/
def strptime : DateStr → Option Int
  | .valid day => some day
  | .malformed => none

/-- One entry of `purchase_history` as appended by `record_purchase`. -/
structure PurchaseRecord where
  item : String
  quantity : Int
  purchase_date : DateStr
  expiry_date : DateStr
deriving DecidableEq

/-- The persisted document (`self.data`): field names and contents follow
`default_data` of `grocery_app.py`. -/
structure GroceryData where
  grocery_list : List String
  purchase_history : List PurchaseRecord
  last_purchase_date : List (String × DateStr)
  purchase_intervals : List (String × List Int)
deriving DecidableEq

/-- Python dict assignment `d[k] = v` on an insertion-ordered association
list: update the existing entry in place, or append a new one. -/
def dictInsert (d : List (String × α)) (k : String) (v : α) : List (String × α) :=
  if (d.map Prod.fst).contains k then
    d.map (fun p => if p.1 = k then (k, v) else p)
  else d ++ [(k, v)]

/-- RULE 1 of `grocery_app.py`: the static shelf-life table
`self.shelf_life_rules`. -/
def shelf_life_rules : List (String × Int) :=
  [("milk", 7), ("eggs", 14), ("bread", 5), ("cheese", 14),
   ("yogurt", 7), ("chicken", 3), ("beef", 3), ("fish", 2),
   ("apples", 10), ("bananas", 4), ("default", 7)]

/-- Python `self.shelf_life_rules.get(item, fallback)`. -/
def shelfLifeGet (item : String) (fallback : Int) : Int :=
  (shelf_life_rules.lookup item).getD fallback

/-- The table's `"default"` entry, `self.shelf_life_rules["default"]` (= 7). -/
def shelfLifeDefault : Int := (shelf_life_rules.lookup "default").getD 0

/-- RULE 2 of `grocery_app.py`: `self.healthier_options`. -/
def healthier_options : List (String × String) :=
  [("white bread", "Whole Wheat Bread"), ("soda", "Sparkling Water"),
   ("chips", "Popcorn"), ("crisps", "Nuts"), ("sugar", "Honey"),
   ("butter", "Olive Oil"), ("white rice", "Brown Rice")]

/-- RULE 3 of `grocery_app.py`: `self.item_pairings`. -/
def item_pairings : List (String × List String) :=
  [("bread", ["Butter", "Jam"]), ("cereal", ["Milk"]),
   ("coffee", ["Milk", "Sugar"])]

/-- Method `get_healthier_option`: first substring match over the
healthier-alternatives table, in table order. -/
def get_healthier_option (item : String) : Option String :=
  (healthier_options.find? (fun e => pyIn e.1 (pyLower item))).map Prod.snd

/-- Method `calculate_average_interval`: mean of the recorded intervals when
at least one exists, else the static shelf-life lookup with the table default. -/
def calculate_average_interval (d : GroceryData) (item : String) : ℚ :=
  match d.purchase_intervals.lookup item with
  | some ivs =>
    if ivs.length ≥ 1 then (ivs.map (fun g => (g : ℚ))).sum / (ivs.length : ℚ)
    else (shelfLifeGet item shelfLifeDefault : ℚ)
  | none => (shelfLifeGet item shelfLifeDefault : ℚ)

/-- Method `replace_item`: in-place substitution at the position of
`old_item`, or the not-found message. -/
def replace_item (d : GroceryData) (old_item new_item : String) :
    GroceryData × String :=
  if d.grocery_list.contains old_item then
    let index := d.grocery_list.indexOf old_item
    ({ d with grocery_list := d.grocery_list.set index new_item },
     s!"♻️ Swapped **{old_item}** for **{new_item}**!")
  else (d, "⚠️ Item not found.")

/-- Method `add_item`: normalise, reject blank or duplicate input, else
append and compose feedback (health tip, pairing suggestion). -/
def add_item (d : GroceryData) (itemRaw : String) :
    GroceryData × String × Bool :=
  let item := pyNorm itemRaw
  if item = "" then (d, "❌ Please enter an item name.", false)
  else if d.grocery_list.contains item then
    let t := pyTitle item
    (d, s!"⚠️ \x27{t}\x27 is already on your list!", false)
  else
    let d2 : GroceryData := { d with grocery_list := d.grocery_list ++ [item] }
    let t := pyTitle item
    let feedback0 : List String := [s!"✅ Added **{t}** to your list."]
    let alt := get_healthier_option item
    let feedback1 := match alt with
      | some a => feedback0 ++ [s!"💡 **Health Tip:** Consider buying **{a}** instead!"]
      | none => feedback0
    let feedback2 := match item_pairings.find? (fun e => pyIn e.1 item) with
      | some e =>
        let ps := String.intercalate ", " e.2
        feedback1 ++ [s!"🛒 **Don\x27t forget:** {ps}"]
      | none => feedback1
    (d2, String.intercalate "\n\n" feedback2, alt.isSome)

/-- Steps 2–4 of `record_purchase` (after the interval update): set
`last_purchase_date[item]`, compute the expiry from the static shelf-life
table, append the `PurchaseRecord`, and remove the first case-insensitive
match from the grocery list. -/
def record_purchase_core (d : GroceryData) (item : String)
    (quantity today : Int) : GroceryData × String :=
  let days_to_expire := shelfLifeGet item shelfLifeDefault
  let expiry := today + days_to_expire
  let hist := d.purchase_history ++
    [⟨item, quantity, DateStr.valid today, DateStr.valid expiry⟩]
  let glist := match d.grocery_list.find? (fun li => item == pyNorm li) with
    | some li => d.grocery_list.erase li
    | none => d.grocery_list
  let t := pyTitle item
  (⟨glist, hist, dictInsert d.last_purchase_date item (DateStr.valid today),
    d.purchase_intervals⟩,
   s!"🛍️ Purchased {quantity}x {t} (Expires on {expiry})")

/-- Method `record_purchase`.  The `strptime` call on a previously stored
date is not guarded by any `try`, so a malformed stored date raises an
uncaught `ValueError`, modelled as `.error`. -/
def record_purchase (d : GroceryData) (itemRaw : String)
    (quantity today : Int) : Except String (GroceryData × String) :=
  let item := pyNorm itemRaw
  match d.last_purchase_date.lookup item with
  | none => .ok (record_purchase_core d item quantity today)
  | some ds =>
    match strptime ds with
    | none => .error "ValueError: time data does not match format"
    | some last_date =>
      let days_passed := today - last_date
      let ivs := (d.purchase_intervals.lookup item).getD []
      let ivs2 := if days_passed > 1 then ivs ++ [days_passed] else ivs
      let d2 : GroceryData :=
        { d with purchase_intervals := dictInsert d.purchase_intervals item ivs2 }
      .ok (record_purchase_core d2 item quantity today)

/-- One restock suggestion of `predict_restock`. -/
structure Suggestion where
  item : String
  days_ago : Int
  reason : String
deriving DecidableEq

/-- The reason text chosen when the average equals the static shelf-life
value. -/
def defaultReasonType : String := "Long time since last purchase (Default rule)"

/-- The reason text chosen otherwise, naming the rounded average. -/
def usedUpReasonType (r : Int) : String :=
  "Used up (Avg. " ++ toString r ++ " days)"

/-- The composed `reason` field of a suggestion
(`f"Bought {days_passed} days ago. {reason_type}."`). -/
def mkReason (days_passed : Int) (reason_type : String) : String :=
  "Bought " ++ toString days_passed ++ " days ago. " ++ reason_type ++ "."

/-- Body of the `predict_restock` loop for one `last_purchase_date` entry:
skip items already on the list, skip malformed dates (`except: continue`),
else suggest when `days_passed >= avg_interval * 0.9`. -/
def predict_one (d : GroceryData) (today : Int) (e : String × DateStr) :
    Option Suggestion :=
  if d.grocery_list.contains e.1 then none
  else
    match strptime e.2 with
    | none => none
    | some last_date =>
      let days_passed := today - last_date
      let avg_interval := calculate_average_interval d e.1
      let threshold := avg_interval * 0.9
      if (days_passed : ℚ) ≥ threshold then
        let reason_type :=
          if avg_interval = ((shelfLifeGet e.1 7 : Int) : ℚ) then defaultReasonType
          else usedUpReasonType (pyRound avg_interval)
        some ⟨e.1, days_passed, mkReason days_passed reason_type⟩
      else none

/-- Method `predict_restock` (the spec's `predictRestock`). -/
def predict_restock (d : GroceryData) (today : Int) : List Suggestion :=
  d.last_purchase_date.filterMap (predict_one d today)

/-- One expiry alert of `check_expiring_items`.  Expired alerts carry no
`item` key in the source, hence `item : Option String`; `item_id` is the
record's position (the source stores `str(idx)`, which the only consumer,
`remove_item_from_inventory`, parses back with `int`). -/
structure Alert where
  type : String
  item : Option String
  item_id : Nat
  msg : String
deriving DecidableEq

/-- The `expired` alert dict appended by `check_expiring_items` (it carries
no `item` key). -/
def expiredAlert (idx : Nat) (item : String) (days_left : Int) : Alert :=
  let a := -days_left
  let t := pyTitle item
  ⟨"expired", none, idx, s!"❌ **{t}** expired {a} days ago!"⟩

/-- The `critical` alert dict appended by `check_expiring_items` (it carries
the item name for the one-click restock button). -/
def criticalAlert (idx : Nat) (item : String) (days_left : Int) : Alert :=
  let t := pyTitle item
  ⟨"critical", some item, idx,
    s!"⚠️ **{t}** expires in {days_left} days! Plan to use or restock."⟩

/-- Body of the `check_expiring_items` loop for one indexed history record:
skip malformed expiry dates (`except: continue`); `expired` when
`days_left < 0`, `critical` when `0 <= days_left <= 2`, nothing otherwise. -/
def check_one (today : Int) (e : Nat × PurchaseRecord) : Option Alert :=
  match strptime e.2.expiry_date with
  | none => none
  | some expiry =>
    let days_left := expiry - today
    if days_left < 0 then some (expiredAlert e.1 e.2.item days_left)
    else if days_left ≤ 2 then some (criticalAlert e.1 e.2.item days_left)
    else none

/-- Method `check_expiring_items` (the spec's `checkExpiryAlerts`): it only
reads `purchase_history`, it never removes a record. -/
def check_expiring_items (d : GroceryData) (today : Int) : List Alert :=
  d.purchase_history.enum.filterMap (check_one today)

/-- Python `del lst[i]` on an integer index: positive in-range and negative
in-range indices delete; anything else raises `IndexError` (`none`). -/
def pyDelIdx (l : List α) (i : Int) : Option (List α) :=
  if 0 ≤ i ∧ i < (l.length : Int) then some (l.eraseIdx i.toNat)
  else if -(l.length : Int) ≤ i ∧ i < 0 then
    some (l.eraseIdx (i + l.length).toNat)
  else none

/-- Method `remove_item_from_inventory` (the spec's `removeFromHistory`):
`int(...)` parse failures and `IndexError` are both caught and return
`False`.  The argument is the parsed integer index. -/
def remove_item_from_inventory (d : GroceryData) (item_id : Int) :
    GroceryData × Bool :=
  match pyDelIdx d.purchase_history item_id with
  | some h => ({ d with purchase_history := h }, true)
  | none => (d, false)

/-- The purchase-intervals value written back by `record_purchase` when a
prior well-formed date exists: append the gap exactly when it exceeds one
day. -/
def updatedIntervals (d : GroceryData) (item : String) (t last : Int) :
    List Int :=
  if t - last > 1 then
    ((d.purchase_intervals.lookup item).getD []) ++ [t - last]
  else
    (d.purchase_intervals.lookup item).getD []

/-- Invariant of C7: every recorded purchase interval is strictly greater
than one day. -/
def intervalsInv (d : GroceryData) : Prop :=
  ∀ it l, d.purchase_intervals.lookup it = some l → ∀ g ∈ l, 1 < g

/-- Entries of the want list in normalised (trimmed, lower-cased) form. -/
def wantListNormalized (l : List String) : Prop := ∀ x ∈ l, pyNorm x = x

/-- The invariant claimed for C4: no duplicate entries under
case-insensitive, trimmed comparison. -/
def wantListNoDupCI (l : List String) : Prop := (l.map pyNorm).Nodup

/-! ## Helper lemmas about the Python string and dict primitives -/

theorem char_toNat_ofNat {n : Nat} (h : n < 55296) : (Char.ofNat n).toNat = n := by
  rw [Char.ofNat, dif_pos (Or.inl h)]
  rfl

theorem toLower_toLower (c : Char) : c.toLower.toLower = c.toLower := by
  simp only [Char.toLower]
  by_cases h : c.toNat ≥ 65 ∧ c.toNat ≤ 90
  · rw [if_pos h, char_toNat_ofNat (by omega)]
    rw [if_neg (by omega)]
  · rw [if_neg h, if_neg h]

theorem isWs_toLower (c : Char) : isWs c.toLower = isWs c := by
  simp only [Char.toLower]
  by_cases h : c.toNat ≥ 65 ∧ c.toNat ≤ 90
  · rw [if_pos h]
    have hl : isWs (Char.ofNat (c.toNat + 32)) = false := by
      simp [isWs, char_toNat_ofNat (show c.toNat + 32 < 55296 by omega)]
      omega
    have hr : isWs c = false := by
      simp [isWs]
      omega
    rw [hl, hr]
  · rw [if_neg h]

theorem dropWhile_self (p : α → Bool) (l : List α) :
    (l.dropWhile p).dropWhile p = l.dropWhile p := by
  induction l with
  | nil => rfl
  | cons a t ih =>
    by_cases h : p a
    · rw [List.dropWhile_cons_of_pos h]; exact ih
    · rw [List.dropWhile_cons_of_neg h, List.dropWhile_cons_of_neg h]

theorem not_p_of_dropWhile_eq_cons {p : α → Bool} {l t : List α} {a : α}
    (h : l.dropWhile p = a :: t) : p a = false := by
  induction l with
  | nil => simp [List.dropWhile] at h
  | cons b l2 ih =>
    by_cases hb : p b
    · rw [List.dropWhile_cons_of_pos hb] at h; exact ih h
    · rw [List.dropWhile_cons_of_neg hb] at h
      cases h
      simpa using hb

theorem stripList_append_eq (l : List Char) :
    stripList l ++ ((l.dropWhile isWs).reverse.takeWhile isWs).reverse
      = l.dropWhile isWs := by
  calc stripList l ++ ((l.dropWhile isWs).reverse.takeWhile isWs).reverse
      = (((l.dropWhile isWs).reverse.takeWhile isWs)
          ++ ((l.dropWhile isWs).reverse.dropWhile isWs)).reverse := by
        rw [List.reverse_append]; rfl
    _ = (l.dropWhile isWs).reverse.reverse := by
        rw [List.takeWhile_append_dropWhile]
    _ = l.dropWhile isWs := List.reverse_reverse _

theorem dropWhile_stripList (l : List Char) :
    (stripList l).dropWhile isWs = stripList l := by
  cases h : stripList l with
  | nil => rfl
  | cons a t =>
    have hu := stripList_append_eq l
    rw [h] at hu
    have hfalse : isWs a = false := by
      apply not_p_of_dropWhile_eq_cons (l := l.dropWhile isWs)
      rw [dropWhile_self, ← hu]
      rfl
    rw [List.dropWhile_cons_of_neg (by simp [hfalse])]

theorem stripList_stripList (l : List Char) :
    stripList (stripList l) = stripList l := by
  show (((stripList l).dropWhile isWs).reverse.dropWhile isWs).reverse = stripList l
  rw [dropWhile_stripList]
  have hrev : (stripList l).reverse = (l.dropWhile isWs).reverse.dropWhile isWs := by
    unfold stripList
    rw [List.reverse_reverse]
  rw [hrev, dropWhile_self, ← hrev, List.reverse_reverse]

theorem stripList_map_toLower (l : List Char) :
    stripList (l.map Char.toLower) = (stripList l).map Char.toLower := by
  have hws : (isWs ∘ Char.toLower) = isWs := funext isWs_toLower
  unfold stripList
  rw [List.dropWhile_map, hws, ← List.map_reverse, List.dropWhile_map, hws,
    ← List.map_reverse]

theorem pyNorm_data (s : String) :
    (pyNorm s).data = (stripList s.data).map Char.toLower := rfl

theorem pyNorm_pyNorm (s : String) : pyNorm (pyNorm s) = pyNorm s := by
  show String.mk ((stripList ((stripList s.data).map Char.toLower)).map Char.toLower)
      = String.mk ((stripList s.data).map Char.toLower)
  have hc : Char.toLower ∘ Char.toLower = Char.toLower := funext toLower_toLower
  rw [stripList_map_toLower, stripList_stripList, List.map_map, hc]

theorem pyNorm_eq_empty_of_ws (s : String) (h : s.data.all isWs) :
    pyNorm s = "" := by
  have hd : s.data.dropWhile isWs = [] := by
    rw [List.dropWhile_eq_nil_iff]
    intro x hx
    exact List.all_eq_true.mp h x hx
  show String.mk ((stripList s.data).map Char.toLower) = ""
  unfold stripList
  rw [hd]
  rfl

theorem lookup_update_self (d : List (String × α)) (k : String) (v : α)
    (h : (d.map Prod.fst).contains k) :
    (d.map (fun p => if p.1 = k then (k, v) else p)).lookup k = some v := by
  induction d with
  | nil => simp at h
  | cons e t ih =>
    rw [List.map_cons]
    by_cases he : e.1 = k
    · rw [if_pos he, List.lookup_cons, show (k == k) = true by simp]
    · have h2 : (t.map Prod.fst).contains k := by
        simp only [List.map_cons, List.contains_cons] at h
        rcases Bool.or_eq_true_iff.mp h with h1 | h1
        · exact absurd (eq_of_beq h1).symm he
        · exact h1
      have hb : (k == e.1) = false := beq_eq_false_iff_ne.mpr fun hh => he hh.symm
      rw [if_neg he, List.lookup_cons]
      rcases e with ⟨ek, ev⟩
      simp only at hb
      rw [hb]
      exact ih h2

theorem lookup_update_ne (d : List (String × α)) (k k2 : String) (v : α)
    (hne : k2 ≠ k) :
    (d.map (fun p => if p.1 = k then (k, v) else p)).lookup k2 = d.lookup k2 := by
  induction d with
  | nil => rfl
  | cons e t ih =>
    rcases e with ⟨ek, ev⟩
    rw [List.map_cons]
    by_cases he : ek = k
    · have hb : (k2 == k) = false := beq_eq_false_iff_ne.mpr hne
      have hb2 : (k2 == ek) = false := beq_eq_false_iff_ne.mpr (he ▸ hne)
      rw [if_pos he, List.lookup_cons, hb, List.lookup_cons, hb2]
      exact ih
    · rw [if_neg he, List.lookup_cons, List.lookup_cons]
      cases hk : k2 == ek
      · exact ih
      · rfl

theorem lookup_dictInsert_self (d : List (String × α)) (k : String) (v : α) :
    (dictInsert d k v).lookup k = some v := by
  unfold dictInsert
  by_cases h : (d.map Prod.fst).contains k
  · rw [if_pos h]
    exact lookup_update_self d k v h
  · rw [if_neg h, List.lookup_append]
    have hnone : d.lookup k = none := by
      rw [List.lookup_eq_none_iff]
      intro p hp
      simp only [List.contains_eq_any_beq] at h
      by_contra hc
      exact h (List.any_eq_true.mpr
        ⟨p.1, List.mem_map_of_mem Prod.fst hp, by simpa using hc⟩)
    rw [hnone]
    simp [List.lookup_cons]

theorem lookup_dictInsert_ne (d : List (String × α)) (k k2 : String) (v : α)
    (hne : k2 ≠ k) :
    (dictInsert d k v).lookup k2 = d.lookup k2 := by
  unfold dictInsert
  by_cases h : (d.map Prod.fst).contains k
  · rw [if_pos h]
    exact lookup_update_ne d k k2 v hne
  · rw [if_neg h, List.lookup_append]
    cases hd : d.lookup k2 with
    | some b => rfl
    | none =>
      rw [List.lookup_cons, show (k2 == k) = false by simpa using hne]
      rfl

/-! ## Structural lemmas about `record_purchase` -/

theorem record_purchase_core_history (d : GroceryData) (item : String)
    (q t : Int) :
    (record_purchase_core d item q t).1.purchase_history
      = d.purchase_history ++
        [⟨item, q, DateStr.valid t,
          DateStr.valid (t + shelfLifeGet item shelfLifeDefault)⟩] := rfl

theorem record_purchase_core_last (d : GroceryData) (item : String)
    (q t : Int) :
    (record_purchase_core d item q t).1.last_purchase_date
      = dictInsert d.last_purchase_date item (DateStr.valid t) := rfl

theorem record_purchase_core_intervals (d : GroceryData) (item : String)
    (q t : Int) :
    (record_purchase_core d item q t).1.purchase_intervals
      = d.purchase_intervals := rfl

theorem record_purchase_core_glist (d : GroceryData) (item : String)
    (q t : Int) :
    (record_purchase_core d item q t).1.grocery_list
      = match d.grocery_list.find? (fun li => item == pyNorm li) with
        | some li => d.grocery_list.erase li
        | none => d.grocery_list := rfl

theorem record_purchase_of_no_prior (d : GroceryData) (raw : String)
    (q t : Int) (h : d.last_purchase_date.lookup (pyNorm raw) = none) :
    record_purchase d raw q t = .ok (record_purchase_core d (pyNorm raw) q t) := by
  simp only [record_purchase, h]

theorem record_purchase_of_valid_prior (d : GroceryData) (raw : String)
    (q t last : Int)
    (h : d.last_purchase_date.lookup (pyNorm raw) = some (DateStr.valid last)) :
    record_purchase d raw q t
      = .ok (record_purchase_core
          (GroceryData.mk d.grocery_list d.purchase_history d.last_purchase_date
            (dictInsert d.purchase_intervals (pyNorm raw)
              (updatedIntervals d (pyNorm raw) t last)))
          (pyNorm raw) q t) := by
  simp only [record_purchase, h, strptime, updatedIntervals]

theorem record_purchase_of_malformed_prior (d : GroceryData) (raw : String)
    (q t : Int)
    (h : d.last_purchase_date.lookup (pyNorm raw) = some DateStr.malformed) :
    record_purchase d raw q t
      = .error "ValueError: time data does not match format" := by
  simp only [record_purchase, h, strptime]

/-! ## Claim theorems -/

/-- C5 (failing input): `record_purchase` on a loader-accepted document whose
stored `last_purchase_date` entry for the purchased item is malformed raises
an uncaught `ValueError` from `strptime` instead of returning a renderable
result, contrary to the propagation policy every other operation follows. -/
theorem c5_record_purchase_uncaught_exception :
    record_purchase ⟨[], [], [("milk", DateStr.malformed)], []⟩ "milk" 1 100
      = .error "ValueError: time data does not match format" := by
  rfl

/-- C6 (counterexample): `removeFromHistory` at the out-of-claimed-bounds
index `-1` does not fail silently leaving the history unchanged: it deletes
the last record and returns `true` (Python `del lst[-1]`). -/
theorem c6_counterexample :
    remove_item_from_inventory
        ⟨[], [⟨"milk", 1, .valid 0, .valid 7⟩, ⟨"eggs", 1, .valid 0, .valid 14⟩],
         [], []⟩ (-1)
      = (⟨[], [⟨"milk", 1, .valid 0, .valid 7⟩], [], []⟩, true)
    ∧ ¬ (0 ≤ (-1 : Int) ∧ (-1 : Int) < 2) := by
  constructor
  · rfl
  · decide

/-- C6 (amended): `removeFromHistory(i)` deletes exactly the record at
position `i` and returns `true` when `0 ≤ i < length`; it also accepts
Python negative indices `-length ≤ i < 0`, deleting the record at position
`length + i` and returning `true`; for any other index it returns `false`
and leaves `purchase_history` unchanged. -/
theorem c6_remove_from_history_amended (d : GroceryData) (i : Int) :
    (0 ≤ i ∧ i < (d.purchase_history.length : Int) →
      remove_item_from_inventory d i
        = ({ d with purchase_history := d.purchase_history.eraseIdx i.toNat },
           true)) ∧
    (-(d.purchase_history.length : Int) ≤ i ∧ i < 0 →
      remove_item_from_inventory d i
        = ({ d with purchase_history :=
              d.purchase_history.eraseIdx (i + d.purchase_history.length).toNat },
           true)) ∧
    ((i < -(d.purchase_history.length : Int) ∨ (d.purchase_history.length : Int) ≤ i) →
      remove_item_from_inventory d i = (d, false)) := by
  unfold remove_item_from_inventory pyDelIdx
  refine ⟨fun h => ?_, fun h => ?_, fun h => ?_⟩
  · rw [if_pos h]
  · rw [if_neg (by omega), if_pos h]
  · rw [if_neg (by omega), if_neg (by omega)]

/-- C6 (witness): the amended theorem applied at concrete inputs: in-bounds
index 0 deletes the first record; index 5 on a two-record history fails. -/
theorem c6_remove_from_history_witness :
    remove_item_from_inventory
        ⟨[], [⟨"milk", 1, .valid 0, .valid 7⟩, ⟨"eggs", 1, .valid 0, .valid 14⟩],
         [], []⟩ 0
      = (⟨[], [⟨"eggs", 1, .valid 0, .valid 14⟩], [], []⟩, true)
    ∧ remove_item_from_inventory
        ⟨[], [⟨"milk", 1, .valid 0, .valid 7⟩, ⟨"eggs", 1, .valid 0, .valid 14⟩],
         [], []⟩ 5
      = (⟨[], [⟨"milk", 1, .valid 0, .valid 7⟩, ⟨"eggs", 1, .valid 0, .valid 14⟩],
          [], []⟩, false) :=
  ⟨((c6_remove_from_history_amended
      ⟨[], [⟨"milk", 1, .valid 0, .valid 7⟩, ⟨"eggs", 1, .valid 0, .valid 14⟩],
       [], []⟩ 0).1 (by decide)),
   ((c6_remove_from_history_amended
      ⟨[], [⟨"milk", 1, .valid 0, .valid 7⟩, ⟨"eggs", 1, .valid 0, .valid 14⟩],
       [], []⟩ 5).2.2 (by decide))⟩

/-- C1 (counterexample): for the item `"milk"` with one recorded interval of
3 days, the learned purchase-interval average is 3, so the claim prescribes
`expiry_date = today + 3`; the code instead looks `"milk"` up in the static
shelf-life table and stamps `today + 7`. -/
theorem c1_counterexample :
    calculate_average_interval ⟨[], [], [("milk", .valid 97)], [("milk", [3])]⟩
        "milk" = 3
    ∧ record_purchase ⟨[], [], [("milk", .valid 97)], [("milk", [3])]⟩ "milk" 1 100
        = .ok (⟨[], [⟨"milk", 1, .valid 100, .valid 107⟩],
               [("milk", .valid 100)], [("milk", [3, 3])]⟩,
               "🛍️ Purchased 1x Milk (Expires on 107)")
    ∧ (107 : Int) ≠ 100 + 3 := by
  refine ⟨?_, by rfl, by decide⟩
  show calculate_average_interval ⟨[], [], [("milk", .valid 97)], [("milk", [3])]⟩
      "milk" = 3
  norm_num [calculate_average_interval, List.lookup]

/-- C1 (amended): `recordPurchase` determines `daysToExpire` by exact-name
lookup of the normalised item in the static shelf-life table with the
table's `"default"` fallback, ignoring both the recorded purchase intervals
and substring matching; the appended record's `expiry_date` equals
`today + daysToExpire`. -/
theorem c1_record_purchase_expiry (d : GroceryData) (raw : String)
    (q t : Int) (s : GroceryData) (msg : String)
    (hok : record_purchase d raw q t = .ok (s, msg)) :
    s.purchase_history = d.purchase_history ++
      [⟨pyNorm raw, q, DateStr.valid t,
        DateStr.valid (t + shelfLifeGet (pyNorm raw) shelfLifeDefault)⟩] := by
  cases hl : d.last_purchase_date.lookup (pyNorm raw) with
  | none =>
    rw [record_purchase_of_no_prior d raw q t hl] at hok
    cases hok
    exact record_purchase_core_history d (pyNorm raw) q t
  | some ds =>
    cases ds with
    | valid last =>
      rw [record_purchase_of_valid_prior d raw q t last hl] at hok
      cases hok
      exact record_purchase_core_history _ (pyNorm raw) q t
    | malformed =>
      rw [record_purchase_of_malformed_prior d raw q t hl] at hok
      cases hok

/-- C1 (witness): the amended theorem applied to a first purchase of
`"milk"` on day 100: the appended record expires on day
`100 + shelfLifeGet "milk" shelfLifeDefault = 107`. -/
theorem c1_record_purchase_expiry_witness :
    (GroceryData.mk [] [⟨"milk", 1, .valid 100, .valid 107⟩]
        [("milk", .valid 100)] []).purchase_history
      = ([] : List PurchaseRecord) ++
        [⟨pyNorm "milk", 1, DateStr.valid 100,
          DateStr.valid (100 + shelfLifeGet (pyNorm "milk") shelfLifeDefault)⟩] :=
  c1_record_purchase_expiry ⟨[], [], [], []⟩ "milk" 1 100 _
    "🛍️ Purchased 1x Milk (Expires on 107)" (by rfl)

/-- C10: `recordPurchase` performs no empty-input validation: a blank or
whitespace-only name normalises to `""`, a `PurchaseRecord` with item `""`
is appended, `last_purchase_date[""]` is set to today, and the document is
persisted (returned), while `addItem` rejects the same input with the
empty-input message and leaves the document unchanged. -/
theorem c10_record_purchase_blank (d : GroceryData) (raw : String) (q t : Int)
    (hws : raw.data.all isWs)
    (hdate : d.last_purchase_date.lookup "" = none ∨
      ∃ day, d.last_purchase_date.lookup "" = some (DateStr.valid day)) :
    (∃ s msg, record_purchase d raw q t = .ok (s, msg)
      ∧ (∃ r : PurchaseRecord, s.purchase_history = d.purchase_history ++ [r]
          ∧ r.item = "")
      ∧ s.last_purchase_date.lookup "" = some (DateStr.valid t))
    ∧ add_item d raw = (d, "❌ Please enter an item name.", false) := by
  have hn : pyNorm raw = "" := pyNorm_eq_empty_of_ws raw hws
  constructor
  · rcases hdate with hnone | ⟨day, hsome⟩
    · refine ⟨(record_purchase_core d (pyNorm raw) q t).1,
        (record_purchase_core d (pyNorm raw) q t).2,
        record_purchase_of_no_prior d raw q t (hn ▸ hnone), ?_, ?_⟩
      · exact ⟨_, record_purchase_core_history d (pyNorm raw) q t, hn⟩
      · rw [record_purchase_core_last, hn, lookup_dictInsert_self]
    · refine ⟨_, _,
        record_purchase_of_valid_prior d raw q t day (hn ▸ hsome), ?_, ?_⟩
      · exact ⟨_, record_purchase_core_history _ (pyNorm raw) q t, hn⟩
      · dsimp only
        rw [hn, lookup_dictInsert_self]
  · simp [add_item, hn]

/-- C10 (witness): the theorem applied to the whitespace-only input `" "`
and the empty document on day 100. -/
theorem c10_record_purchase_blank_witness :
    (∃ s msg, record_purchase ⟨[], [], [], []⟩ " " 5 100 = .ok (s, msg)
      ∧ (∃ r : PurchaseRecord, s.purchase_history = ([] : List PurchaseRecord) ++ [r]
          ∧ r.item = "")
      ∧ s.last_purchase_date.lookup "" = some (DateStr.valid 100))
    ∧ add_item ⟨[], [], [], []⟩ " "
        = (⟨[], [], [], []⟩, "❌ Please enter an item name.", false) :=
  c10_record_purchase_blank ⟨[], [], [], []⟩ " " 5 100 (by decide) (Or.inl rfl)

/-! ## Frame lemmas: which fields each operation leaves unchanged -/

theorem add_item_intervals (d : GroceryData) (raw : String) :
    (add_item d raw).1.purchase_intervals = d.purchase_intervals := by
  simp only [add_item]
  split
  · rfl
  · split <;> rfl

theorem replace_item_intervals (d : GroceryData) (a b : String) :
    (replace_item d a b).1.purchase_intervals = d.purchase_intervals := by
  simp only [replace_item]
  split <;> rfl

theorem remove_item_intervals (d : GroceryData) (i : Int) :
    (remove_item_from_inventory d i).1.purchase_intervals
      = d.purchase_intervals := by
  simp only [remove_item_from_inventory]
  split <;> rfl

theorem remove_item_glist (d : GroceryData) (i : Int) :
    (remove_item_from_inventory d i).1.grocery_list = d.grocery_list := by
  simp only [remove_item_from_inventory]
  split <;> rfl

theorem add_item_glist_cases (d : GroceryData) (raw : String) :
    (add_item d raw).1.grocery_list = d.grocery_list ∨
    ((add_item d raw).1.grocery_list = d.grocery_list ++ [pyNorm raw]
      ∧ pyNorm raw ≠ "" ∧ ¬ d.grocery_list.contains (pyNorm raw)) := by
  simp only [add_item]
  split
  · exact Or.inl rfl
  · rename_i h1
    split
    · exact Or.inl rfl
    · rename_i h2
      exact Or.inr ⟨rfl, h1, h2⟩

theorem record_purchase_glist_cases (d : GroceryData) (raw : String)
    (q t : Int) (s : GroceryData) (msg : String)
    (hok : record_purchase d raw q t = .ok (s, msg)) :
    s.grocery_list = d.grocery_list ∨
    ∃ li, s.grocery_list = d.grocery_list.erase li := by
  have core : ∀ d0 : GroceryData, d0.grocery_list = d.grocery_list →
      (record_purchase_core d0 (pyNorm raw) q t).1.grocery_list = d.grocery_list ∨
      ∃ li, (record_purchase_core d0 (pyNorm raw) q t).1.grocery_list
        = d.grocery_list.erase li := by
    intro d0 h0
    rw [record_purchase_core_glist]
    cases hf : d0.grocery_list.find? (fun li => pyNorm raw == pyNorm li) with
    | none => exact Or.inl h0
    | some li => exact Or.inr ⟨li, by rw [h0]⟩
  cases hl : d.last_purchase_date.lookup (pyNorm raw) with
  | none =>
    rw [record_purchase_of_no_prior d raw q t hl] at hok
    cases hok
    exact core d rfl
  | some ds =>
    cases ds with
    | valid last =>
      rw [record_purchase_of_valid_prior d raw q t last hl] at hok
      cases hok
      exact core _ rfl
    | malformed =>
      rw [record_purchase_of_malformed_prior d raw q t hl] at hok
      cases hok

theorem updatedIntervals_eq (d : GroceryData) (item : String) (t last : Int) :
    updatedIntervals d item t last
      = (d.purchase_intervals.lookup item).getD []
          ++ (if t - last > 1 then [t - last] else []) := by
  unfold updatedIntervals
  split
  · rfl
  · rw [List.append_nil]

theorem record_purchase_intervals_eq (d : GroceryData) (raw : String)
    (q t : Int) (s : GroceryData) (msg : String)
    (hok : record_purchase d raw q t = .ok (s, msg)) :
    (d.last_purchase_date.lookup (pyNorm raw) = none
      ∧ s.purchase_intervals = d.purchase_intervals) ∨
    (∃ last, d.last_purchase_date.lookup (pyNorm raw) = some (DateStr.valid last)
      ∧ s.purchase_intervals
          = dictInsert d.purchase_intervals (pyNorm raw)
              (updatedIntervals d (pyNorm raw) t last)) := by
  cases hl : d.last_purchase_date.lookup (pyNorm raw) with
  | none =>
    rw [record_purchase_of_no_prior d raw q t hl] at hok
    cases hok
    exact Or.inl ⟨rfl, record_purchase_core_intervals d (pyNorm raw) q t⟩
  | some ds =>
    cases ds with
    | valid last =>
      rw [record_purchase_of_valid_prior d raw q t last hl] at hok
      cases hok
      exact Or.inr ⟨last, rfl, record_purchase_core_intervals _ (pyNorm raw) q t⟩
    | malformed =>
      rw [record_purchase_of_malformed_prior d raw q t hl] at hok
      cases hok

theorem intervalsInv_of_all (d : GroceryData)
    (h : ∀ e ∈ d.purchase_intervals, ∀ g ∈ e.2, 1 < g) : intervalsInv d := by
  intro it l hl g hg
  have hmem : (it, l) ∈ d.purchase_intervals := by
    rcases List.lookup_eq_some_iff.mp hl with ⟨l1, l2, heq, -⟩
    rw [heq]
    exact List.mem_append_right _ (List.mem_cons_self _ _)
  exact h _ hmem g hg

/-- C7: every operation preserves the invariant that all recorded purchase
intervals are strictly greater than one day, and `recordPurchase` appends
`gap = today - priorDate` to `purchase_intervals[item]` if and only if a
prior (well-formed) `last_purchase_date[item]` exists and `gap > 1`; other
items' interval lists are untouched. -/
theorem c7_interval_invariant (d : GroceryData) (hinv : intervalsInv d) :
    (∀ raw, intervalsInv (add_item d raw).1) ∧
    (∀ a b, intervalsInv (replace_item d a b).1) ∧
    (∀ i, intervalsInv (remove_item_from_inventory d i).1) ∧
    (∀ raw q t s msg, record_purchase d raw q t = .ok (s, msg) →
      intervalsInv s ∧
      (d.last_purchase_date.lookup (pyNorm raw) = none →
        s.purchase_intervals = d.purchase_intervals) ∧
      (∀ last,
        d.last_purchase_date.lookup (pyNorm raw) = some (DateStr.valid last) →
        s.purchase_intervals.lookup (pyNorm raw)
          = some ((d.purchase_intervals.lookup (pyNorm raw)).getD []
              ++ (if t - last > 1 then [t - last] else []))
        ∧ ∀ it, it ≠ pyNorm raw →
            s.purchase_intervals.lookup it = d.purchase_intervals.lookup it)) := by
  have key : ∀ x : GroceryData,
      x.purchase_intervals = d.purchase_intervals → intervalsInv x := by
    intro x hx
    unfold intervalsInv
    rw [hx]
    exact hinv
  have mem_upd : ∀ last g, g ∈ updatedIntervals d (pyNorm "x") 0 last → True :=
    fun _ _ _ => trivial
  refine ⟨fun raw => key _ (add_item_intervals d raw),
    fun a b => key _ (replace_item_intervals d a b),
    fun i => key _ (remove_item_intervals d i),
    fun raw q t s msg hok => ?_⟩
  have hupd : ∀ last g, g ∈ updatedIntervals d (pyNorm raw) t last → 1 < g := by
    intro last g hg
    rw [updatedIntervals_eq] at hg
    rcases List.mem_append.mp hg with h | h
    · cases ho : d.purchase_intervals.lookup (pyNorm raw) with
      | none => rw [ho] at h; simp at h
      | some l0 => rw [ho] at h; exact hinv _ l0 ho g h
    · by_cases hc : t - last > 1
      · rw [if_pos hc] at h
        rcases List.mem_singleton.mp h with rfl
        exact hc
      · rw [if_neg hc] at h
        simp at h
  rcases record_purchase_intervals_eq d raw q t s msg hok with
    ⟨hl, hs⟩ | ⟨last, hl, hs⟩
  · refine ⟨key s hs, fun _ => hs, fun last hlast => ?_⟩
    rw [hl] at hlast
    cases hlast
  · refine ⟨?_, fun hnone => ?_, fun last2 hlast => ?_⟩
    · intro it l hit g hg
      by_cases hip : it = pyNorm raw
      · subst hip
        rw [hs, lookup_dictInsert_self] at hit
        cases hit
        exact hupd last g hg
      · rw [hs, lookup_dictInsert_ne _ _ _ _ hip] at hit
        exact hinv it l hit g hg
    · rw [hl] at hnone
      cases hnone
    · rw [hl] at hlast
      cases hlast
      refine ⟨?_, fun it hit => ?_⟩
      · rw [hs, lookup_dictInsert_self, updatedIntervals_eq]
      · rw [hs, lookup_dictInsert_ne _ _ _ _ hit]

/-- C7 (witness): the invariant-preservation theorem applied to a concrete
valid document: recording `"milk"` three days after the prior purchase
appends the gap 3. -/
theorem c7_interval_invariant_witness :
    (GroceryData.mk [] [⟨"milk", 1, .valid 100, .valid 107⟩]
        [("milk", .valid 100)] [("milk", [3, 3])]).purchase_intervals.lookup
          (pyNorm "milk")
      = some (((GroceryData.mk [] [] [("milk", .valid 97)]
          [("milk", [3])] : GroceryData).purchase_intervals.lookup
            (pyNorm "milk")).getD []
          ++ (if (100 : Int) - 97 > 1 then [(100 : Int) - 97] else [])) :=
  (((c7_interval_invariant ⟨[], [], [("milk", .valid 97)], [("milk", [3])]⟩
      (intervalsInv_of_all _ (by decide))).2.2.2
    "milk" 1 100 _ "🛍️ Purchased 1x Milk (Expires on 107)" (by rfl)).2.2
    97 (by rfl)).1

theorem get?_indexOf_self {l : List String} {a : String} (h : a ∈ l) :
    l.get? (l.indexOf a) = some a := by
  induction l with
  | nil => cases h
  | cons b t ih =>
    rw [List.indexOf_cons]
    by_cases hb : b = a
    · subst hb
      simp
    · rw [show (b == a) = false by simpa using hb]
      have ha : a ∈ t := by
        rcases List.mem_cons.mp h with h1 | h1
        · exact absurd h1.symm hb
        · exact h1
      simpa using ih ha

theorem indexOf_lt_length_of_mem {l : List String} {a : String} (h : a ∈ l) :
    l.indexOf a < l.length := by
  induction l with
  | nil => cases h
  | cons b t ih =>
    rw [List.indexOf_cons]
    by_cases hb : b = a
    · subst hb
      simp
    · rw [show (b == a) = false by simpa using hb]
      have ha : a ∈ t := by
        rcases List.mem_cons.mp h with h1 | h1
        · exact absurd h1.symm hb
        · exact h1
      simpa using ih ha

/-- C9: when `oldName` is on the list, `replaceItem` substitutes `newName`
at `oldName`'s position (the entry at that position was `oldName` and
becomes `newName`), leaves every other position and every other document
field unchanged, and returns the swap message; when `oldName` is absent it
returns the item-not-found message and leaves the document entirely
unchanged. -/
theorem c9_replace_item (d : GroceryData) (old_item new_item : String) :
    (old_item ∈ d.grocery_list →
      d.grocery_list.get? (d.grocery_list.indexOf old_item) = some old_item
      ∧ (replace_item d old_item new_item).1.grocery_list
          = d.grocery_list.set (d.grocery_list.indexOf old_item) new_item
      ∧ (replace_item d old_item new_item).1.grocery_list.get?
            (d.grocery_list.indexOf old_item) = some new_item
      ∧ (∀ j : Nat, j ≠ d.grocery_list.indexOf old_item →
          (replace_item d old_item new_item).1.grocery_list.get? j
            = d.grocery_list.get? j)
      ∧ (replace_item d old_item new_item).1.purchase_history
          = d.purchase_history
      ∧ (replace_item d old_item new_item).1.last_purchase_date
          = d.last_purchase_date
      ∧ (replace_item d old_item new_item).1.purchase_intervals
          = d.purchase_intervals
      ∧ (replace_item d old_item new_item).2
          = s!"♻️ Swapped **{old_item}** for **{new_item}**!")
    ∧ (old_item ∉ d.grocery_list →
        replace_item d old_item new_item = (d, "⚠️ Item not found.")) := by
  constructor
  · intro hmem
    have hcont : d.grocery_list.contains old_item = true :=
      List.elem_iff.mpr hmem
    have hrw : replace_item d old_item new_item
        = ({ d with grocery_list :=
              d.grocery_list.set (d.grocery_list.indexOf old_item) new_item },
           s!"♻️ Swapped **{old_item}** for **{new_item}**!") := by
      simp only [replace_item]
      rw [if_pos hcont]
    refine ⟨get?_indexOf_self hmem, by rw [hrw], ?_, ?_, by rw [hrw],
      by rw [hrw], by rw [hrw], by rw [hrw]⟩
    · rw [hrw]
      have hlt := indexOf_lt_length_of_mem hmem
      simp [List.get?_eq_getElem?, List.getElem?_set_self hlt]
    · intro j hj
      rw [hrw]
      simp only [List.get?_eq_getElem?]
      exact List.getElem?_set_ne fun he => hj he.symm
  · intro hmem
    have hcont : d.grocery_list.contains old_item = false := by
      rw [← Bool.not_eq_true]
      intro hc
      exact hmem (List.elem_iff.mp hc)
    simp only [replace_item]
    rw [if_neg (by rw [hcont]; exact Bool.false_ne_true)]

/-- C9 (witness): the theorem applied to the list `["soda", "water"]`:
swapping `"soda"` puts the new name at position 0, and replacing an absent
item leaves the document unchanged. -/
theorem c9_replace_item_witness :
    ((GroceryData.mk ["soda", "water"] [] [] []).grocery_list.get?
        ((GroceryData.mk ["soda", "water"] [] [] []).grocery_list.indexOf "soda")
      = some "soda")
    ∧ replace_item ⟨["water"], [], [], []⟩ "soda" "juice"
        = (⟨["water"], [], [], []⟩, "⚠️ Item not found.") :=
  ⟨(c9_replace_item ⟨["soda", "water"], [], [], []⟩ "soda" "Sparkling Water").1
      (by decide) |>.1,
   (c9_replace_item ⟨["water"], [], [], []⟩ "soda" "juice").2 (by decide)⟩

/-- C4 (counterexample): starting from a normalised, duplicate-free want
list, a single `replaceItem` call inserts a new name that duplicates an
existing entry up to case, so the claimed invariant is not preserved by
`replaceItem`. -/
theorem c4_counterexample :
    wantListNormalized
        (GroceryData.mk ["soda", "sparkling water"] [] [] []).grocery_list
    ∧ wantListNoDupCI
        (GroceryData.mk ["soda", "sparkling water"] [] [] []).grocery_list
    ∧ (replace_item ⟨["soda", "sparkling water"], [], [], []⟩
          "soda" "Sparkling Water").1.grocery_list
        = ["Sparkling Water", "sparkling water"]
    ∧ ¬ wantListNoDupCI
        (replace_item ⟨["soda", "sparkling water"], [], [], []⟩
          "soda" "Sparkling Water").1.grocery_list := by
  refine ⟨by unfold wantListNormalized; decide, by unfold wantListNoDupCI; decide,
    by rfl, by unfold wantListNoDupCI; decide⟩

/-- C4 (amended): on documents whose want-list entries are normalised
(trimmed, lower-cased), `addItem`, `recordPurchase` and `removeFromHistory`
preserve both normalisation and the no-duplicates (case-insensitive,
trimmed) invariant; `replaceItem` does not preserve it, because it inserts
the replacement name verbatim without any duplicate check (see the
counterexample). -/
theorem c4_want_list_nodup_amended (d : GroceryData)
    (hn : wantListNormalized d.grocery_list)
    (hd : wantListNoDupCI d.grocery_list) :
    (∀ raw, wantListNormalized (add_item d raw).1.grocery_list
      ∧ wantListNoDupCI (add_item d raw).1.grocery_list) ∧
    (∀ raw q t s msg, record_purchase d raw q t = .ok (s, msg) →
      wantListNormalized s.grocery_list ∧ wantListNoDupCI s.grocery_list) ∧
    (∀ i, wantListNormalized (remove_item_from_inventory d i).1.grocery_list
      ∧ wantListNoDupCI (remove_item_from_inventory d i).1.grocery_list) := by
  have hmapid : d.grocery_list.map pyNorm = d.grocery_list := by
    have h1 : d.grocery_list.map pyNorm = d.grocery_list.map id :=
      List.map_congr_left (fun x hx => (hn x hx : pyNorm x = id x))
    rw [h1, List.map_id]
  refine ⟨fun raw => ?_, fun raw q t s msg hok => ?_, fun i => ?_⟩
  · rcases add_item_glist_cases d raw with heq | ⟨heq, hne, hnc⟩
    · rw [heq]
      exact ⟨hn, hd⟩
    · rw [heq]
      have hnotmem : pyNorm raw ∉ d.grocery_list := fun hm =>
        hnc (List.elem_iff.mpr hm)
      constructor
      · intro x hx
        rcases List.mem_append.mp hx with h1 | h1
        · exact hn x h1
        · rcases List.mem_singleton.mp h1 with rfl
          exact pyNorm_pyNorm raw
      · unfold wantListNoDupCI
        rw [List.map_append]
        rw [List.nodup_append]
        refine ⟨hd, List.nodup_singleton _, ?_⟩
        intro x hx1 hx2
        simp only [List.map_cons, List.map_nil, List.mem_singleton] at hx2
        rw [hmapid] at hx1
        rw [pyNorm_pyNorm] at hx2
        exact hnotmem (hx2 ▸ hx1)
  · rcases record_purchase_glist_cases d raw q t s msg hok with heq | ⟨li, heq⟩
    · rw [heq]
      exact ⟨hn, hd⟩
    · rw [heq]
      constructor
      · intro x hx
        exact hn x (List.mem_of_mem_erase hx)
      · exact ((List.erase_sublist li d.grocery_list).map pyNorm).nodup hd
  · rw [remove_item_glist]
    exact ⟨hn, hd⟩

/-- C4 (witness): the amended theorem applied to a concrete normalised
document: adding `"Milk "` to `["soda"]` keeps the invariant. -/
theorem c4_want_list_nodup_witness :
    wantListNormalized (add_item ⟨["soda"], [], [], []⟩ "Milk ").1.grocery_list
    ∧ wantListNoDupCI (add_item ⟨["soda"], [], [], []⟩ "Milk ").1.grocery_list :=
  (c4_want_list_nodup_amended ⟨["soda"], [], [], []⟩
    (by unfold wantListNormalized; decide) (by unfold wantListNoDupCI; decide)).1
    "Milk "

theorem predict_one_item_eq {d : GroceryData} {today : Int}
    {e : String × DateStr} {sg : Suggestion}
    (h : predict_one d today e = some sg) : sg.item = e.1 := by
  unfold predict_one at h
  split at h
  · cases h
  · split at h
    · cases h
    · dsimp only at h
      split at h
      · cases h
        rfl
      · cases h

theorem predict_one_isSome_valid (d : GroceryData) (today : Int)
    (x : String) (last : Int) :
    (predict_one d today (x, DateStr.valid last)).isSome
      ↔ (x ∉ d.grocery_list
          ∧ ((today - last : Int) : ℚ)
              ≥ calculate_average_interval d x * 0.9) := by
  unfold predict_one
  by_cases hc : d.grocery_list.contains x
  · rw [if_pos hc]
    simp [List.elem_iff.mp hc]
  · rw [if_neg hc]
    have hmem : x ∉ d.grocery_list := fun hm => hc (List.elem_iff.mpr hm)
    dsimp only [strptime]
    by_cases hcond : (((today - last : Int) : ℚ)
        ≥ calculate_average_interval d x * 0.9)
    · rw [if_pos hcond]
      exact ⟨fun _ => ⟨hmem, hcond⟩, fun _ => rfl⟩
    · rw [if_neg hcond]
      exact ⟨fun h => absurd h (by simp), fun hr => absurd hr.2 hcond⟩

theorem mem_predict_iff (d : GroceryData) (today : Int) (x : String) :
    ∀ (l : List (String × DateStr)), (l.map Prod.fst).Nodup →
      ((∃ sg ∈ l.filterMap (predict_one d today), sg.item = x) ↔
        (∃ ds, l.lookup x = some ds
          ∧ (predict_one d today (x, ds)).isSome)) := by
  intro l
  induction l with
  | nil =>
    intro _
    simp
  | cons e t ih =>
    intro hnd
    rcases e with ⟨k, ds0⟩
    rw [List.map_cons, List.nodup_cons] at hnd
    by_cases hx : x = k
    · subst hx
      rw [List.lookup_cons_self]
      constructor
      · rintro ⟨sg, hsg, hitem⟩
        rw [List.filterMap_cons] at hsg
        cases hp : predict_one d today (x, ds0) with
        | some sg0 =>
          exact ⟨ds0, rfl, by rw [hp]; rfl⟩
        | none =>
          rw [hp] at hsg
          exfalso
          rcases List.mem_filterMap.mp hsg with ⟨e2, he2, hfe2⟩
          have h1 : sg.item = e2.1 := predict_one_item_eq hfe2
          apply hnd.1
          have hmm : e2.1 ∈ t.map Prod.fst := List.mem_map_of_mem Prod.fst he2
          rwa [← h1, hitem] at hmm
      · rintro ⟨ds, hds, hsome⟩
        cases hds
        rcases Option.isSome_iff_exists.mp hsome with ⟨sg0, hp⟩
        refine ⟨sg0, ?_, predict_one_item_eq hp⟩
        rw [List.filterMap_cons, hp]
        exact List.mem_cons_self _ _
    · have hlk : (((k, ds0) :: t).lookup x) = t.lookup x := by
        rw [List.lookup_cons, show (x == k) = false by simpa using hx]
      rw [hlk, List.filterMap_cons]
      cases hp : predict_one d today (k, ds0) with
      | none => exact ih hnd.2
      | some sg0 =>
        constructor
        · rintro ⟨sg, hsg, hitem⟩
          rcases List.mem_cons.mp hsg with rfl | hsg2
          · exact absurd (by rw [← hitem, predict_one_item_eq hp]) hx
          · exact (ih hnd.2).mp ⟨sg, hsg2, hitem⟩
        · intro hr
          rcases (ih hnd.2).mpr hr with ⟨sg, hsg, hitem⟩
          exact ⟨sg, List.mem_cons_of_mem _ hsg, hitem⟩

/-- C2: `predictRestock` includes an item iff it has a recorded (well
formed) `last_purchase_date`, is absent from the want list, and
`daysPassed >= expectedInterval * 0.9`, where `expectedInterval` is the
arithmetic mean of the recorded intervals when at least one exists and the
static per-item shelf-life default otherwise; an item never purchased is
never included. -/
theorem c2_predict_restock (d : GroceryData) (today : Int) (x : String)
    (hnd : (d.last_purchase_date.map Prod.fst).Nodup) :
    (d.last_purchase_date.lookup x = none →
      ∀ sg ∈ predict_restock d today, sg.item ≠ x) ∧
    (∀ last, d.last_purchase_date.lookup x = some (DateStr.valid last) →
      ((∃ sg ∈ predict_restock d today, sg.item = x) ↔
        (x ∉ d.grocery_list
          ∧ ((today - last : Int) : ℚ)
              ≥ calculate_average_interval d x * 0.9))) ∧
    (∀ ivs, d.purchase_intervals.lookup x = some ivs → ivs ≠ [] →
      calculate_average_interval d x
        = (ivs.map (fun g => (g : ℚ))).sum / (ivs.length : ℚ)) ∧
    ((d.purchase_intervals.lookup x = none ∨
        d.purchase_intervals.lookup x = some []) →
      calculate_average_interval d x = (shelfLifeGet x shelfLifeDefault : ℚ)) := by
  refine ⟨?_, ?_, ?_, ?_⟩
  · intro hnone sg hsg hitem
    rcases List.mem_filterMap.mp hsg with ⟨e2, he2, hfe2⟩
    have h1 : sg.item = e2.1 := predict_one_item_eq hfe2
    have h2 := List.lookup_eq_none_iff.mp hnone e2 he2
    rw [hitem] at h1
    rw [h1] at h2
    simp at h2
  · intro last hlast
    rw [show (∃ sg ∈ predict_restock d today, sg.item = x) ↔
        (∃ ds, d.last_purchase_date.lookup x = some ds
          ∧ (predict_one d today (x, ds)).isSome) from
      mem_predict_iff d today x d.last_purchase_date hnd]
    constructor
    · rintro ⟨ds, hds, hsome⟩
      rw [hlast] at hds
      cases hds
      exact (predict_one_isSome_valid d today x last).mp hsome
    · intro hr
      exact ⟨DateStr.valid last, hlast,
        (predict_one_isSome_valid d today x last).mpr hr⟩
  · intro ivs hivs hne
    unfold calculate_average_interval
    rw [hivs]
    dsimp only
    rw [if_pos (show ivs.length ≥ 1 from List.length_pos.mpr hne)]
  · intro h
    unfold calculate_average_interval
    rcases h with h | h
    · rw [h]
    · rw [h]
      rfl

/-- C2 (witness): the theorem applied to a document where `"milk"` was last
purchased 10 days ago with no learned intervals: the inclusion test reduces
to `10 >= expectedInterval * 0.9` with the expected interval being the
static shelf life. -/
theorem c2_predict_restock_witness :
    ((∃ sg ∈ predict_restock ⟨[], [], [("milk", .valid 90)], []⟩ 100,
        sg.item = "milk") ↔
      ("milk" ∉ ([] : List String)
        ∧ ((100 - 90 : Int) : ℚ)
            ≥ calculate_average_interval
                ⟨[], [], [("milk", .valid 90)], []⟩ "milk" * 0.9))
    ∧ calculate_average_interval ⟨[], [], [("milk", .valid 90)], []⟩ "milk"
        = (shelfLifeGet "milk" shelfLifeDefault : ℚ) :=
  ⟨(c2_predict_restock ⟨[], [], [("milk", .valid 90)], []⟩ 100 "milk"
      (by decide)).2.1 90 rfl,
   (c2_predict_restock ⟨[], [], [("milk", .valid 90)], []⟩ 100 "milk"
      (by decide)).2.2.2 (Or.inl rfl)⟩

theorem check_one_item_id {today : Int} {e : Nat × PurchaseRecord} {a : Alert}
    (h : check_one today e = some a) : a.item_id = e.1 := by
  unfold check_one at h
  split at h
  · cases h
  · dsimp only at h
    split at h
    · cases h
      rfl
    · split at h
      · cases h
        rfl
      · cases h

theorem check_one_valid (today : Int) (i : Nat) (p : PurchaseRecord) (e : Int)
    (he : p.expiry_date = DateStr.valid e) :
    check_one today (i, p)
      = (if e - today < 0 then some (expiredAlert i p.item (e - today))
         else if e - today ≤ 2 then some (criticalAlert i p.item (e - today))
         else none) := by
  unfold check_one
  dsimp only
  rw [he]
  rfl

theorem alert_mem_check_iff (d : GroceryData) (today : Int) (i : Nat)
    (p : PurchaseRecord) (hp : d.purchase_history.get? i = some p)
    (a : Alert) :
    (a ∈ check_expiring_items d today ∧ a.item_id = i)
      ↔ check_one today (i, p) = some a := by
  constructor
  · rintro ⟨hmem, hid⟩
    rcases List.mem_filterMap.mp hmem with ⟨⟨j, p2⟩, hj, hco⟩
    have hji : j = i := by
      have := check_one_item_id hco
      simpa [hid] using this.symm
    subst hji
    have hp2 : p2 = p := by
      have h1 := List.mk_mem_enum_iff_getElem?.mp hj
      rw [List.get?_eq_getElem?] at hp
      rw [hp] at h1
      exact (Option.some_inj.mp h1).symm
    rw [← hp2]
    exact hco
  · intro hco
    refine ⟨List.mem_filterMap.mpr ⟨(i, p), ?_, hco⟩, check_one_item_id hco⟩
    rw [List.mk_mem_enum_iff_getElem?, ← List.get?_eq_getElem?]
    exact hp

/-- C3: for a history record at position `i` with a well-formed (concrete)
`expiry_date` and `daysLeft = expiry_date - today`, `checkExpiryAlerts`
emits an alert for that record with type `expired` iff `daysLeft < 0`, with
type `critical` iff `0 ≤ daysLeft ≤ 2`, and no alert at all when
`daysLeft > 2`; the function only reads `purchase_history`, so the record
remains in the document (removal happens only through
`remove_item_from_inventory`). -/
theorem c3_expiry_alerts (d : GroceryData) (today : Int) (i : Nat)
    (p : PurchaseRecord) (e : Int)
    (hp : d.purchase_history.get? i = some p)
    (he : p.expiry_date = DateStr.valid e) :
    ((e - today < 0) ↔
      ∃ a ∈ check_expiring_items d today, a.item_id = i ∧ a.type = "expired") ∧
    ((0 ≤ e - today ∧ e - today ≤ 2) ↔
      ∃ a ∈ check_expiring_items d today, a.item_id = i ∧ a.type = "critical") ∧
    (2 < e - today →
      ∀ a ∈ check_expiring_items d today, a.item_id ≠ i) := by
  have hco := check_one_valid today i p e he
  refine ⟨⟨fun hdl => ?_, fun hex => ?_⟩, ⟨fun hdl => ?_, fun hex => ?_⟩,
    fun hdl a hmem hid => ?_⟩
  · refine ⟨expiredAlert i p.item (e - today),
      ((alert_mem_check_iff d today i p hp _).mpr ?_).1, rfl, rfl⟩
    rw [hco, if_pos hdl]
  · rcases hex with ⟨a, hmem, hid, htype⟩
    have h1 := (alert_mem_check_iff d today i p hp a).mp ⟨hmem, hid⟩
    rw [hco] at h1
    by_cases h2 : e - today < 0
    · exact h2
    · exfalso
      rw [if_neg h2] at h1
      by_cases h3 : e - today ≤ 2
      · rw [if_pos h3] at h1
        cases h1
        exact absurd (show ("critical" : String) = "expired" from htype)
          (by decide)
      · rw [if_neg h3] at h1
        cases h1
  · refine ⟨criticalAlert i p.item (e - today),
      ((alert_mem_check_iff d today i p hp _).mpr ?_).1, rfl, rfl⟩
    rw [hco, if_neg (by omega), if_pos hdl.2]
  · rcases hex with ⟨a, hmem, hid, htype⟩
    have h1 := (alert_mem_check_iff d today i p hp a).mp ⟨hmem, hid⟩
    rw [hco] at h1
    by_cases h2 : e - today < 0
    · exfalso
      rw [if_pos h2] at h1
      cases h1
      exact absurd (show ("expired" : String) = "critical" from htype)
        (by decide)
    · rw [if_neg h2] at h1
      by_cases h3 : e - today ≤ 2
      · omega
      · exfalso
        rw [if_neg h3] at h1
        cases h1
  · have h1 := (alert_mem_check_iff d today i p hp a).mp ⟨hmem, hid⟩
    rw [hco, if_neg (by omega), if_neg (by omega)] at h1
    cases h1

/-- C3 (witness): the theorem applied to a concrete record expiring two days
from now (day 102, today 100): the critical alert fires, the expired one
does not. -/
theorem c3_expiry_alerts_witness :
    ((102 - 100 : Int) < 0 ↔
      ∃ a ∈ check_expiring_items
          ⟨[], [⟨"milk", 1, .valid 95, .valid 102⟩], [], []⟩ 100,
        a.item_id = 0 ∧ a.type = "expired") ∧
    ((0 ≤ (102 - 100 : Int) ∧ (102 - 100 : Int) ≤ 2) ↔
      ∃ a ∈ check_expiring_items
          ⟨[], [⟨"milk", 1, .valid 95, .valid 102⟩], [], []⟩ 100,
        a.item_id = 0 ∧ a.type = "critical") :=
  ⟨(c3_expiry_alerts ⟨[], [⟨"milk", 1, .valid 95, .valid 102⟩], [], []⟩
      100 0 ⟨"milk", 1, .valid 95, .valid 102⟩ 102 rfl rfl).1,
   (c3_expiry_alerts ⟨[], [⟨"milk", 1, .valid 95, .valid 102⟩], [], []⟩
      100 0 ⟨"milk", 1, .valid 95, .valid 102⟩ 102 rfl rfl).2.1⟩

theorem calc_avg_fallback (d : GroceryData) (x : String)
    (h : d.purchase_intervals.lookup x = none ∨
      d.purchase_intervals.lookup x = some []) :
    calculate_average_interval d x
      = ((shelfLifeGet x shelfLifeDefault : Int) : ℚ) := by
  unfold calculate_average_interval
  rcases h with h | h
  · rw [h]
  · rw [h]
    rfl

theorem mkReason_inj {dys : Int} {a b : String}
    (h : mkReason dys a = mkReason dys b) : a = b := by
  unfold mkReason at h
  have h2 := congrArg String.data h
  simp at h2
  exact congrArg String.mk h2

theorem usedUp_ne_default (r : Int) : usedUpReasonType r ≠ defaultReasonType := by
  intro h
  have h2 := congrArg (fun s => s.data.head?) h
  simp only [usedUpReasonType, defaultReasonType, String.data_append] at h2
  simp at h2

/-- C8 (counterexample): with learned intervals `[7, 7]` for `"milk"`, the
expected interval is the learned average 7, yet because it coincides with
the static shelf-life value the emitted reason is the "Default rule" text,
not the learned-average ("Used up") text the claim requires. -/
theorem c8_counterexample :
    predict_restock ⟨[], [], [("milk", .valid 93)], [("milk", [7, 7])]⟩ 100
      = [⟨"milk", 7, mkReason 7 defaultReasonType⟩]
    ∧ (GroceryData.mk [] [] [("milk", .valid 93)]
        [("milk", [7, 7])]).purchase_intervals.lookup "milk" = some [7, 7]
    ∧ calculate_average_interval
        ⟨[], [], [("milk", .valid 93)], [("milk", [7, 7])]⟩ "milk" = 7
    ∧ mkReason 7 defaultReasonType
        ≠ mkReason 7 (usedUpReasonType (pyRound 7)) := by
  have havg : calculate_average_interval
      ⟨[], [], [("milk", .valid 93)], [("milk", [7, 7])]⟩ "milk" = 7 := by
    norm_num [calculate_average_interval, List.lookup]
  have hp : predict_one ⟨[], [], [("milk", .valid 93)], [("milk", [7, 7])]⟩ 100
      ("milk", DateStr.valid 93)
      = some ⟨"milk", 7, mkReason 7 defaultReasonType⟩ := by
    unfold predict_one
    rw [if_neg (by decide)]
    dsimp only [strptime]
    rw [havg]
    norm_num [shelfLifeGet, shelf_life_rules, List.lookup]
  refine ⟨?_, rfl, havg, ?_⟩
  · unfold predict_restock
    rw [List.filterMap_cons, hp]
    rfl
  · intro h
    exact usedUp_ne_default _ (mkReason_inj h).symm

/-- C8 (amended): every suggestion's reason carries the "Default rule" text
exactly when the expected interval equals the item's static shelf-life
lookup (`shelf_life_rules.get(item, 7)`) — which always holds when the
fallback was used, but also when a learned average happens to coincide with
the static value — and carries exactly the rounded learned-average
("Used up (Avg. N days)") text otherwise. -/
theorem c8_reason_amended (d : GroceryData) (today : Int) (sg : Suggestion)
    (h : sg ∈ predict_restock d today) :
    (sg.reason = mkReason sg.days_ago defaultReasonType
      ↔ calculate_average_interval d sg.item
          = ((shelfLifeGet sg.item 7 : Int) : ℚ)) ∧
    ((d.purchase_intervals.lookup sg.item = none ∨
        d.purchase_intervals.lookup sg.item = some []) →
      sg.reason = mkReason sg.days_ago defaultReasonType) ∧
    (calculate_average_interval d sg.item
        ≠ ((shelfLifeGet sg.item 7 : Int) : ℚ) →
      sg.reason = mkReason sg.days_ago
        (usedUpReasonType (pyRound (calculate_average_interval d sg.item)))) := by
  rcases List.mem_filterMap.mp h with ⟨e, he, hfe⟩
  unfold predict_one at hfe
  split at hfe
  · cases hfe
  · split at hfe
    · cases hfe
    · dsimp only at hfe
      split at hfe
      · cases hfe
        refine ⟨?_, ?_, ?_⟩
        · dsimp only
          by_cases havg : calculate_average_interval d e.1
              = ((shelfLifeGet e.1 7 : Int) : ℚ)
          · rw [if_pos havg]
            exact iff_of_true rfl havg
          · rw [if_neg havg]
            refine iff_of_false (fun hh => ?_) havg
            exact usedUp_ne_default _ (mkReason_inj hh)
        · intro hfall
          dsimp only at hfall ⊢
          have havg := calc_avg_fallback d e.1 hfall
          have h0 : shelfLifeDefault = 7 := by decide
          rw [if_pos (by rw [havg, h0])]
        · intro hne
          dsimp only at hne ⊢
          rw [if_neg hne]
      · cases hfe

/-- C8 (witness): the amended theorem applied to the suggestion produced for
`"milk"` last bought 10 days ago with no learned intervals: the fallback was
used, so the reason is the "Default rule" text. -/
theorem c8_reason_amended_witness :
    ((Suggestion.mk "milk" 10 (mkReason 10 defaultReasonType)).reason
        = mkReason (Suggestion.mk "milk" 10
            (mkReason 10 defaultReasonType)).days_ago defaultReasonType
      ↔ calculate_average_interval ⟨[], [], [("milk", .valid 90)], []⟩
            (Suggestion.mk "milk" 10 (mkReason 10 defaultReasonType)).item
          = ((shelfLifeGet (Suggestion.mk "milk" 10
              (mkReason 10 defaultReasonType)).item 7 : Int) : ℚ)) ∧
    (((GroceryData.mk [] [] [("milk", .valid 90)] []).purchase_intervals.lookup
          (Suggestion.mk "milk" 10 (mkReason 10 defaultReasonType)).item = none ∨
        (GroceryData.mk [] [] [("milk", .valid 90)] []).purchase_intervals.lookup
          (Suggestion.mk "milk" 10 (mkReason 10 defaultReasonType)).item
            = some []) →
      (Suggestion.mk "milk" 10 (mkReason 10 defaultReasonType)).reason
        = mkReason (Suggestion.mk "milk" 10
            (mkReason 10 defaultReasonType)).days_ago defaultReasonType) ∧
    (calculate_average_interval ⟨[], [], [("milk", .valid 90)], []⟩
          (Suggestion.mk "milk" 10 (mkReason 10 defaultReasonType)).item
        ≠ ((shelfLifeGet (Suggestion.mk "milk" 10
            (mkReason 10 defaultReasonType)).item 7 : Int) : ℚ) →
      (Suggestion.mk "milk" 10 (mkReason 10 defaultReasonType)).reason
        = mkReason (Suggestion.mk "milk" 10
              (mkReason 10 defaultReasonType)).days_ago
            (usedUpReasonType (pyRound (calculate_average_interval
              ⟨[], [], [("milk", .valid 90)], []⟩
              (Suggestion.mk "milk" 10 (mkReason 10 defaultReasonType)).item)))) := by
  apply c8_reason_amended ⟨[], [], [("milk", .valid 90)], []⟩ 100
  have havg : calculate_average_interval ⟨[], [], [("milk", .valid 90)], []⟩
      "milk" = ((7 : Int) : ℚ) := by
    have h1 := calc_avg_fallback ⟨[], [], [("milk", .valid 90)], []⟩ "milk"
      (Or.inl rfl)
    rwa [show (shelfLifeGet "milk" shelfLifeDefault : Int) = 7 by decide] at h1
  have hp : predict_one ⟨[], [], [("milk", .valid 90)], []⟩ 100
      ("milk", DateStr.valid 90)
      = some ⟨"milk", 10, mkReason 10 defaultReasonType⟩ := by
    unfold predict_one
    rw [if_neg (by decide)]
    dsimp only [strptime]
    rw [havg]
    norm_num [shelfLifeGet, shelf_life_rules, List.lookup]
  unfold predict_restock
  rw [List.filterMap_cons, hp]
  show _ ∈ (Suggestion.mk "milk" 10 (mkReason 10 defaultReasonType)) ::
    List.filterMap (predict_one ⟨[], [], [("milk", .valid 90)], []⟩ 100) []
  exact List.mem_cons_self _ _
